import Mathlib

/-!
Verification of the slurp file-to-sink pipeline.

The development shallow-embeds the core of the repository:

* `src/slurp/block.py` — the block iterators (`BlockIterator.next`,
  `LineIterator._parse`, `MultiLineIterator._parse`);
* `src/slurp/channel.py` — the channel consumer (`ChannelConsumer.step`,
  `flush`, `flushed`, `error`, `__call__`), `ChannelSource.open`,
  `Throttle`, and the worker (`ChannelWorker.on_modify_file`, `step`, `run`).

File contents are byte lists (`List Nat`), file paths are strings, the
sqlite-backed tracker is an association list updated by prepending (lookup
takes the first hit, which models dict/primary-key update), and external
collaborators (the sink, the regex pattern, the watcher) are parameters.
-/

namespace Slurp

/-- Python `str.find`: index of the first occurrence of `pat` in `hay`,
`none` when absent.  `find` of the empty pattern is 0, as in Python. -/
def findSub (pat : List Nat) : List Nat → Option Nat
  | [] => if pat = [] then some 0 else none
  | h :: t =>
    if pat.isPrefixOf (h :: t) then some 0
    else (findSub pat t).map (· + 1)

/-- Python slice index normalization: negative indices count from the end,
then the index is clamped to `[0, len]`. -/
def pyIdx (len : Nat) (i : Int) : Nat :=
  (max 0 (min (len : Int) (if i < 0 then i + len else i))).toNat

/-- Python `l[a:b]` (step 1), including negative-index behaviour. -/
def pySlice (l : List Nat) (a b : Int) : List Nat :=
  (l.take (pyIdx l.length b)).drop (pyIdx l.length a)

/-- Truthiness of an optional number, as Python: `None` and `0` are falsy. -/
def optTruthy : Option Nat → Bool
  | none => false
  | some n => n ≠ 0

/-- Dictionary update `m[k] = v` for an association list read through
`List.lookup` (first binding wins). -/
def setk (m : List (String × Nat)) (k : String) (v : Nat) : List (String × Nat) :=
  (k, v) :: m

/-- A `Block` from `block.py`: a delimited substring of `path` with its byte
offsets (`end` is spelled `end_`, a Lean keyword otherwise). -/
structure Block where
  path : String
  begin : Nat
  end_ : Nat
  raw : List Nat
  deriving DecidableEq, Repr

/-- Mutable state of `BlockIterator`: `pos` (offset bookkeeping for emitted
blocks), the file object's read position `fpos`, the parse buffer, the EOF
flag, and the discard-next-block flag. -/
structure ItState where
  pos : Nat
  fpos : Nat
  buf : List Nat
  eof : Bool
  discard : Bool
  deriving DecidableEq, Repr

/-- Result of a `_parse` call: no block yet (with the possibly-updated
state), a block `(raw, begin, end)` plus the updated state, or a strict-mode
`ValueError`. -/
inductive ParseRes where
  | noRes (st : ItState)
  | found (raw : List Nat) (b e : Nat) (st : ItState)
  | perr
  deriving Repr

/-- A `_parse` implementation: takes the EOF flag and the iterator state. -/
def ParseFn : Type := Bool → ItState → ParseRes

/-- Iterator configuration (`strict`, `read_size`, `max_buffer_size`;
`none` models `max_buffer_size=None`, i.e. unbounded). -/
structure ItCfg where
  strict : Bool
  readSize : Nat
  maxBuf : Option Nat
  deriving Repr

/-- Result of `BlockIterator.next`: a block, `StopIteration`, a strict-mode
`ValueError`, or exhausted fuel. -/
inductive NextOut where
  | block (b : Block) (st : ItState)
  | stop (st : ItState)
  | err
  | fuelOut
  deriving Repr

/-- The `while not self.eof` loop of `BlockIterator.next`: read a chunk
(short read sets EOF), extend the buffer, `_parse`; on no block either
discard an over-long buffer (strict: raise) or keep reading; a parsed block
is dropped once if the discard flag is set. -/
def nextLoop (path : String) (content : List Nat) (parse : ParseFn) (cfg : ItCfg) :
    Nat → ItState → NextOut
  | 0, _ => .fuelOut
  | fuel + 1, st =>
    if st.eof then .stop st
    else
      let n := match cfg.maxBuf with
        | none => cfg.readSize
        | some m => min cfg.readSize (m - st.buf.length)
      let chunk := (content.drop st.fpos).take n
      let st1 : ItState :=
        { st with
          fpos := st.fpos + chunk.length
          buf := st.buf ++ chunk
          eof := chunk.length ≠ n }
      match parse st1.eof st1 with
      | .noRes st2 =>
        match cfg.maxBuf with
        | some m =>
          if st2.buf.length ≥ m then
            if cfg.strict then .err
            else nextLoop path content parse cfg fuel { st2 with discard := true, buf := [] }
          else nextLoop path content parse cfg fuel st2
        | none => nextLoop path content parse cfg fuel st2
      | .found raw b e st2 =>
        if st2.discard then
          nextLoop path content parse cfg fuel { st2 with discard := false }
        else .block ⟨path, b, e, raw⟩ st2
      | .perr => .err

/-- `BlockIterator.next`: when the buffer is non-empty, `_parse` is tried
first (note: this early return does not consult the discard flag, as in the
source); otherwise the read loop runs. -/
def pynext (path : String) (content : List Nat) (parse : ParseFn) (cfg : ItCfg)
    (fuel : Nat) (st : ItState) : NextOut :=
  if st.buf ≠ [] then
    match parse st.eof st with
    | .found raw b e st' => .block ⟨path, b, e, raw⟩ st'
    | .noRes st' => nextLoop path content parse cfg fuel st'
    | .perr => .err
  else nextLoop path content parse cfg fuel st

/-- `LineIterator._parse`: a block ends at the first occurrence of the
terminal; the emitted raw bytes include the terminal. -/
def lineParse (term : List Nat) : ParseFn := fun _eof st =>
  match findSub term st.buf with
  | none => .noRes st
  | some i =>
    let idx := i + term.length
    .found (st.buf.take idx) st.pos (st.pos + idx)
      { st with buf := st.buf.drop idx, pos := st.pos + idx }

/-- `MultiLineIterator._parse` with the preamble regex specialized to a
literal byte string `pre` (a regex that matches exactly `pre`; `search`
then is `findSub` and a match spans `pre.length` bytes).  The structure
follows the source: find the first preamble match, discard (strict: raise) a
partial head, then look for the next match starting at the first match's end
in the pre-discard coordinates; a next match not immediately preceded by the
terminal makes `_parse` return `None`; with no next match the buffered tail
is emitted at EOF only when it ends with the terminal. -/
def mlParse (pre term : List Nat) (strict : Bool) : ParseFn := fun eof st =>
  match findSub pre st.buf with
  | none => .noRes st
  | some s0 =>
    if s0 ≠ 0 ∧ strict then .perr
    else
      let st := if s0 ≠ 0 then { st with buf := st.buf.drop s0, pos := st.pos + s0 } else st
      let mEnd := s0 + pre.length
      match (findSub pre (st.buf.drop mEnd)).map (· + mEnd) with
      | some s1 =>
        let pfx := pySlice st.buf ((s1 : Int) - term.length) (s1 : Int)
        if pfx = term then
          .found (st.buf.take s1) st.pos (st.pos + s1)
            { st with buf := st.buf.drop s1, pos := st.pos + s1 }
        else .noRes st
      | none =>
        if ¬ eof then .noRes st
        else
          let sfx := pySlice st.buf (-(term.length : Int)) (st.buf.length : Int)
          if sfx ≠ term then .noRes st
          else
            .found st.buf st.pos (st.pos + st.buf.length)
              { st with buf := [], pos := st.pos + st.buf.length }

/-- Fresh iterator state for a file object positioned at `offset`
(`self.pos = fo.tell()`). -/
def itInit (offset : Nat) : ItState :=
  { pos := offset, fpos := offset, buf := [], eof := false, discard := false }

/-- Drain an iterator: repeatedly call `next`, collecting emitted blocks,
until `StopIteration` (or an error / exhausted fuel, flagged `false`). -/
def collectBlocks (path : String) (content : List Nat) (parse : ParseFn) (cfg : ItCfg) :
    Nat → ItState → List Block × ItState × Bool
  | 0, st => ([], st, false)
  | fuel + 1, st =>
    match pynext path content parse cfg (content.length + 2) st with
    | .block b st' =>
      let (bs, stF, clean) := collectBlocks path content parse cfg fuel st'
      (b :: bs, stF, clean)
    | .stop st' => ([], st', true)
    | .err => ([], st, false)
    | .fuelOut => ([], st, false)

/-- All blocks a `LineIterator` over `content` emits from `offset`. -/
def lineBlocks (path : String) (content : List Nat) (term : List Nat) (cfg : ItCfg)
    (offset : Nat) : List Block × ItState × Bool :=
  collectBlocks path content (lineParse term) cfg (content.length + 2) (itInit offset)

/-- All blocks a `MultiLineIterator` over `content` emits from `offset`. -/
def mlBlocks (path : String) (content : List Nat) (pre term : List Nat) (cfg : ItCfg)
    (offset : Nat) : List Block × ItState × Bool :=
  collectBlocks path content (mlParse pre term cfg.strict) cfg (content.length + 2)
    (itInit offset)

/-! ## ChannelSource.open -/

/-- `ChannelSource.open`: the resulting file position.  A truthy `offset`
argument wins; else a tracker entry for the path; else end of file unless
the channel backfills (the freshly opened file is at position 0). -/
def openPos (tracker : List (String × Nat)) (backfill : Bool) (fileSize : Nat)
    (path : String) (offset : Option Nat) : Nat :=
  if optTruthy offset then offset.getD 0
  else
    match List.lookup path tracker with
    | some o => o
    | none => if ¬ backfill then fileSize else 0

/-- `ChannelConsumer.__call__` on a path: `offset` is looked up in the
consumer's in-memory `pending_tracker` and passed to `ChannelSource.open`. -/
def consumeOpenPos (pendingTracker tracker : List (String × Nat)) (backfill : Bool)
    (fileSize : Nat) (path : String) : Nat :=
  openPos tracker backfill fileSize path (List.lookup path pendingTracker)

/-! ## Throttle -/

/-- `Throttle` state; `cap = none` models `cap=None`. -/
structure Throttle where
  duration : Nat
  backoff : Nat
  cap : Option Nat
  count : Nat
  expiresAt : Option Nat
  deriving DecidableEq, Repr

/-- `Throttle.reset`. -/
def throttleReset (t : Throttle) : Throttle :=
  { t with count := 0, expiresAt := none }

/-- `Throttle.__nonzero__` at time `now`: false when `expires_at` is unset,
auto-clears and is false when it lies in the past, else true. -/
def throttleTruthy (t : Throttle) (now : Nat) : Bool × Throttle :=
  if ¬ optTruthy t.expiresAt then (false, t)
  else
    let e := t.expiresAt.getD 0
    if e < now then (false, { t with expiresAt := none })
    else (true, t)

/-- `Throttle.__call__` at time `now`: the duration grows linearly in
`count`, is capped only when `cap` is truthy, `expires_at` is set, `count`
incremented, and the duration returned. -/
def throttleCall (t : Throttle) (now : Nat) : Nat × Throttle :=
  let d0 := t.duration + t.duration * t.backoff * t.count
  let d := match t.cap with
    | some c => if c ≠ 0 ∧ d0 > c then c else d0
    | none => d0
  (d, { t with expiresAt := some (now + d), count := t.count + 1 })

/-! ## ChannelConsumer -/

/-- Response of one sink call (`self.sink(form, block)`): truthy (the block
is buffered as pending), falsy (the block is acknowledged), or an
exception. -/
inductive SinkRes where
  | ack
  | pend
  | exn
  deriving DecidableEq, Repr

/-- External behaviour driving one `step` run: the sink's response to its
`k`-th call, the outcome of its `k`-th `flush` (false = raise), and for
each file offset the `(form, block)` items a fresh `source.forms(fo)`
generator yields there, whether it ends by raising, and the file position
(`fo.tell()`) once it is exhausted. -/
structure FormsRun where
  items : List (Nat × Block)
  raises : Bool
  tell : Nat

structure Oracles where
  sinkCall : Nat → SinkRes
  flushOk : Nat → Bool
  streams : Nat → FormsRun

/-- Channel configuration visible to the consumer.  `batchSize = none`
models `batch_size=None`: in Python 2 `pending >= None` is always true. -/
structure ConsCfg where
  strict : Bool
  resetSlack : Int
  batchSize : Option Nat
  flushFreq : Option Nat
  now : Nat

/-- Python 2 comparison `pending >= batch_size` where `batch_size` may be
`None` (and `None` is smaller than every int). -/
def pyGeOpt (n : Nat) : Option Nat → Bool
  | none => true
  | some m => n ≥ m

/-- Consumer state.  `acked` and `errWrites` are specification ghosts, not
source state: `acked` records every `(path, end)` the sink acknowledged —
directly (a falsy sink return) or via a successful flush of the pending
entries, per the sink contract — and `errWrites` records the tracker writes
performed by the error handler `ChannelConsumer.error`. -/
structure CState where
  tracker : List (String × Nat)
  pendingTracker : List (String × Nat)
  pending : Nat
  count : Nat
  bytes : Nat
  errors : Nat
  slack : Int
  flushAt : Option Nat
  sinkIdx : Nat
  flushIdx : Nat
  acked : List (String × Nat)
  errWrites : List (String × Nat)

/-- The local counters of one `step` call. -/
structure StepLocals where
  count : Nat
  pending : Nat
  bytes : Nat
  errors : Nat
  deriving DecidableEq, Repr

def locals0 : StepLocals := ⟨0, 0, 0, 0⟩

/-- `ChannelConsumer.flushed`: fold pending into `count`, clear pending
state (for every path), disarm the flush timer, and reset the slack. -/
def flushedFn (cfg : ConsCfg) (st : CState) : CState :=
  { st with
    count := st.count + st.pending
    pending := 0
    flushAt := none
    slack := cfg.resetSlack
    pendingTracker := [] }

/-- Commit every `(path, offset)` binding of `l` into the tracker `tr`
(the `for path, offset in self.pending_tracker.iteritems()` loop). -/
def commit (tr : List (String × Nat)) (l : List (String × Nat)) : List (String × Nat) :=
  l.foldl (fun m pv => setk m pv.1 pv.2) tr

/-- `ChannelConsumer.flush`: when pending blocks exist, `sink.flush()` (an
exception propagates, `.error`), then every `pending_tracker` entry is
committed to the durable tracker; finally `flushed`. -/
def flushFn (cfg : ConsCfg) (or : Oracles) (st : CState) : Except CState CState :=
  if st.pending ≠ 0 then
    if ¬ or.flushOk st.flushIdx then .error { st with flushIdx := st.flushIdx + 1 }
    else
      .ok (flushedFn cfg
        { st with
            flushIdx := st.flushIdx + 1
            tracker := commit st.tracker st.pendingTracker
            acked := st.acked ++ st.pendingTracker })
  else .ok (flushedFn cfg st)

/-- `ChannelConsumer.error` on block `b`: re-raise (`none`) when the channel
is strict with no slack left; otherwise burn one slack, count the errored
block plus everything pending as errors, drop pending state, advance the
tracker to the errored block's end and seek the file there. -/
def errorFn (cfg : ConsCfg) (st : CState) (b : Block) : Option CState :=
  if cfg.strict ∧ st.slack ≤ 0 then none
  else
    some
      { st with
        slack := st.slack - 1
        errors := st.errors + st.pending + 1
        pending := 0
        flushAt := none
        pendingTracker := []
        tracker := setk st.tracker b.path b.end_
        errWrites := (b.path, b.end_) :: st.errWrites }

/-- Outcome of processing the items of one generator (`for form, block in
source.forms(fo)` up to the point a sink call or batch flush raises). -/
inductive ForOut where
  | done (st : CState) (loc : StepLocals) (lastB : Option Block)
  | raisedAt (st : CState) (loc : StepLocals) (b : Block)

/-- Outcome of one `(form, block)` loop iteration. -/
inductive OneOut where
  | cont (st : CState) (loc : StepLocals)
  | raisedAt (st : CState) (loc : StepLocals)

/-- One iteration of the `step` loop body: call the sink; a truthy return
records the pending offset, arms the flush timer, and may force a batch
flush (whose failure raises); a falsy return commits `block.end` to the
tracker and runs `flushed`; finally the block's bytes are accumulated. -/
def procOne (cfg : ConsCfg) (or : Oracles) (b : Block) (st : CState)
    (loc : StepLocals) : OneOut :=
  let r := or.sinkCall st.sinkIdx
  let st := { st with sinkIdx := st.sinkIdx + 1 }
  match r with
  | .exn => .raisedAt st loc
  | .pend =>
    let st :=
      { st with
        pendingTracker := setk st.pendingTracker b.path b.end_
        flushAt :=
          if ¬ optTruthy st.flushAt ∧ optTruthy cfg.flushFreq then
            some (cfg.now + cfg.flushFreq.getD 0)
          else st.flushAt
        pending := st.pending + 1 }
    let loc := { loc with pending := loc.pending + 1 }
    if pyGeOpt st.pending cfg.batchSize then
      match flushFn cfg or st with
      | .ok st' =>
        let loc := { loc with count := loc.count + loc.pending, pending := 0 }
        let st' := { st' with bytes := st'.bytes + (b.end_ - b.begin) }
        .cont st' { loc with bytes := loc.bytes + (b.end_ - b.begin) }
      | .error st' => .raisedAt st' loc
    else
      let st := { st with bytes := st.bytes + (b.end_ - b.begin) }
      .cont st { loc with bytes := loc.bytes + (b.end_ - b.begin) }
  | .ack =>
    let st :=
      { st with
        tracker := setk st.tracker b.path b.end_
        acked := (b.path, b.end_) :: st.acked }
    let st := flushedFn cfg st
    let loc := { loc with count := loc.count + 1, pending := 0 }
    let st := { st with bytes := st.bytes + (b.end_ - b.begin) }
    .cont st { loc with bytes := loc.bytes + (b.end_ - b.begin) }

/-- The `for form, block in source.forms(fo)` loop over one generator's
items. -/
def procItems (cfg : ConsCfg) (or : Oracles) :
    List (Nat × Block) → CState → StepLocals → Option Block → ForOut
  | [], st, loc, lb => .done st loc lb
  | (_, b) :: rest, st, loc, _ =>
    match procOne cfg or b st loc with
    | .cont st' loc' => procItems cfg or rest st' loc' (some b)
    | .raisedAt st' loc' => .raisedAt st' loc' b

/-- Outcome of `ChannelConsumer.step`: the returned
`(count, pending, bytes, errors)` tuple together with the file position on
return, a propagated exception, or exhausted fuel; each carries the
consumer state reached. -/
inductive StepOut where
  | ret (count pending bytes errors tell : Nat) (st : CState)
  | raised (st : CState)
  | fuelOut (st : CState)

/-- The consumer state an outcome carries. -/
def StepOut.state : StepOut → CState
  | .ret _ _ _ _ _ st => st
  | .raised st => st
  | .fuelOut st => st

/-- The consumer state a `procOne` outcome carries. -/
def OneOut.state : OneOut → CState
  | .cont st _ => st
  | .raisedAt st _ => st

/-- The consumer state a `procItems` outcome carries. -/
def ForOut.state : ForOut → CState
  | .done st _ _ => st
  | .raisedAt st _ _ => st

/-- `ChannelConsumer.step`: iterate fresh `source.forms(fo)` generators.  A
normally exhausted generator returns the local tally.  An exception with no
block yet seen in this call re-raises; otherwise `error` handles it (itself
re-raising when strict with no slack), the errored and pending blocks are
counted, the file is seeked to the errored block's end, and the loop
continues from there. -/
def stepLoop (cfg : ConsCfg) (or : Oracles) :
    Nat → Nat → CState → StepLocals → Option Block → StepOut
  | 0, _, st, _, _ => .fuelOut st
  | fuel + 1, off, st, loc, lastB =>
    let run := or.streams off
    match procItems cfg or run.items st loc lastB with
    | .raisedAt st' loc' b =>
      match errorFn cfg st' b with
      | none => .raised st'
      | some st'' =>
        stepLoop cfg or fuel b.end_ st''
          { loc' with errors := loc'.errors + loc'.pending + 1, pending := 0 } (some b)
    | .done st' loc' lb =>
      if run.raises then
        match lb with
        | none => .raised st'
        | some b =>
          match errorFn cfg st' b with
          | none => .raised st'
          | some st'' =>
            stepLoop cfg or fuel b.end_ st''
              { loc' with errors := loc'.errors + loc'.pending + 1, pending := 0 } (some b)
      else .ret loc'.count loc'.pending loc'.bytes loc'.errors run.tell st'

/-- A consumer whose durable tracker is `tr` and everything else is fresh
(`ChannelConsumer.__init__`). -/
def consInit (cfg : ConsCfg) (tr : List (String × Nat)) : CState :=
  { tracker := tr, pendingTracker := [], pending := 0, count := 0, bytes := 0
    errors := 0, slack := cfg.resetSlack, flushAt := none, sinkIdx := 0
    flushIdx := 0, acked := [], errWrites := [] }

/-- `source.forms(fo)` for a line-mode source whose regex pattern matches
every block and with no channel form or filter configured: each emitted
block yields one `(form, block)` pair; `tell` is the iterator's read
position once the generator is exhausted. -/
def lineStreams (path : String) (content term : List Nat) (icfg : ItCfg) :
    Nat → FormsRun := fun o =>
  let r := lineBlocks path content term icfg o
  ⟨r.1.map (fun b => (0, b)), false, r.2.1.fpos⟩

/-- `ChannelConsumer.__call__` on a path: position the file per
`ChannelSource.open` (a pending-tracker entry is passed as the explicit
offset), run `step`, and — when the run consumed zero bytes — write
`fo.tell()` into the durable tracker.  `none` models a propagated
exception. -/
def consumeCall (cfg : ConsCfg) (or : Oracles) (fuel : Nat) (backfill : Bool)
    (fileSize : Nat) (path : String) (st : CState) :
    Option ((Nat × Nat × Nat × Nat) × CState) :=
  let off := openPos st.tracker backfill fileSize path (List.lookup path st.pendingTracker)
  match stepLoop cfg or fuel off st locals0 none with
  | .ret c p b e tell st' =>
    some ((c, p, b, e),
      if b = 0 then { st' with tracker := setk st'.tracker path tell } else st')
  | _ => none

/-! ## ChannelWorker -/

/-- Python exception kinds the worker code distinguishes. -/
inductive PyExc where
  | ioError (errno : Nat)
  | typeError
  | valueError
  | other
  deriving DecidableEq, Repr

def ENOENT : Nat := 2

/-- A `ChannelEvent`: path plus a CREATE/MODIFY/DELETE flag bitset. -/
structure ChannelEvent where
  path : String
  flags : Nat
  deriving DecidableEq, Repr

def ChannelEvent.isCreate (e : ChannelEvent) : Bool := 1 &&& e.flags ≠ 0
def ChannelEvent.isModify (e : ChannelEvent) : Bool := 2 &&& e.flags ≠ 0
def ChannelEvent.isDelete (e : ChannelEvent) : Bool := 4 &&& e.flags ≠ 0

/-- Worker state: the match cache (`path -> source or None`, sources named
by index), the throttle, and the event queue. -/
structure WorkerSt where
  matchCache : List (String × Option Nat)
  throttle : Throttle
  queue : List ChannelEvent
  deriving DecidableEq, Repr

/-- `ChannelWorker.match` with the memoizing cache. -/
def workerMatch (chMatch : String → Option Nat) (st : WorkerSt) (path : String) :
    Option Nat × WorkerSt :=
  match List.lookup path st.matchCache with
  | some s => (s, st)
  | none =>
    let s := chMatch path
    (s, { st with matchCache := (path, s) :: st.matchCache })

/-- `ChannelWorker.on_modify_file`.  `consumeRes` is the outcome of
`self.consume(event.path, source)`.  On an `IOError` with `errno == ENOENT`
the handler calls `self.on_delete_file()` — but that method takes an event
argument the call omits, so Python raises `TypeError` there (the following
unconditional `raise` is then unreachable and the match cache is never
touched); every other exception is re-raised. -/
def onModifyFile (chMatch : String → Option Nat) (st : WorkerSt) (ev : ChannelEvent)
    (consumeRes : Except PyExc (Nat × Nat × Nat × Nat)) :
    Except PyExc Nat × WorkerSt :=
  let (srcOpt, st) := workerMatch chMatch st ev.path
  match srcOpt with
  | none => (.ok 0, st)
  | some _ =>
    match consumeRes with
    | .ok (count, _, _, _) =>
      (.ok count,
        if count ≠ 0 then { st with throttle := throttleReset st.throttle } else st)
    | .error (PyExc.ioError en) =>
      if en = ENOENT then (.error PyExc.typeError, st)
      else (.error (PyExc.ioError en), st)
    | .error e => (.error e, st)

/-- `ChannelWorker.on_delete_file`: drop the path from the match cache
(`dict.pop` raises `KeyError` when absent; the model keeps the success
path). -/
def onDeleteFile (st : WorkerSt) (ev : ChannelEvent) : WorkerSt :=
  { st with matchCache := st.matchCache.filter (fun kv => kv.1 ≠ ev.path) }

/-- The dispatch part of `ChannelWorker.step` for one dequeued event: route
by flag; any exception engages the throttle (`self.throttle()`) and
requeues the event. -/
def workerDispatch (chMatch : String → Option Nat) (st : WorkerSt) (ev : ChannelEvent)
    (consumeRes : Except PyExc (Nat × Nat × Nat × Nat)) (now : Nat) : WorkerSt :=
  let (r, st') :=
    if ev.isDelete then (.ok 0, onDeleteFile st ev)
    else if ev.isCreate then onModifyFile chMatch st ev consumeRes
    else if ev.isModify then onModifyFile chMatch st ev consumeRes
    else (Except.ok 0, st)
  match r with
  | .ok _ => st'
  | .error _ =>
    { st' with
      throttle := (throttleCall st'.throttle now).2
      queue := st'.queue ++ [ev] }

/-- The sleep duration computed by `ChannelWorker.run` when the throttle is
active: `time.sleep(max(0, time.time() - self.throttle.expires_at))`. -/
def workerRunSleep (expiresAt now : Nat) : Int :=
  max 0 ((now : Int) - (expiresAt : Int))

/-! ## Concrete inputs used by the claims -/

/-- The bytes of `"aaaaaaaa\nbb\ncc\n"`: an 8-byte record that overflows a
4-byte buffer, followed by two ordinary records. -/
def g1 : List Nat := [97, 97, 97, 97, 97, 97, 97, 97, 10, 98, 98, 10, 99, 99, 10]

/-- The bytes of `"##A##B\n##C\n"`: a record whose body embeds the preamble
`"##"` at offset 3 (preceded by `"A"`, not by the terminal), followed by a
well-delimited second record at offset 7 (preceded by `"\n"`). -/
def g2 : List Nat := [35, 35, 65, 35, 35, 66, 10, 35, 35, 67, 10]

/-! ## C2 -/

/-- C2: for every emitted block, `end - begin = len(raw)` and `raw` equals
the content slice `[begin, end)` — refuted.  With `read_size = 4` and
`max_buffer_size = 4` over `g1`, the oversized first record is discarded
but `BlockIterator.next` clears the buffer without advancing `pos`, so the
first block emitted after the discard carries offsets `(1, 4)` while its
raw bytes were actually read from positions 9..11; the length equation
still holds but the raw bytes differ from the slice `g1[1:4] = "aaa"`. -/
theorem discard_block_raw_mismatch :
    ∃ b : Block,
      (lineBlocks "p" g1 [10] ⟨false, 4, some 4⟩ 0).1.head? = some b ∧
      b.end_ - b.begin = b.raw.length ∧
      b.raw ≠ (g1.drop b.begin).take (b.end_ - b.begin) :=
  ⟨⟨"p", 1, 4, [98, 98, 10]⟩, by decide⟩

/-! ## C3 -/

/-- C3: in multi-line mode a preamble match not preceded by the terminal is
skipped and the record is emitted at the next terminal-preceded match —
refuted.  `MultiLineIterator._parse` returns `None` instead of continuing
its scan loop past the embedded match, so over `g2` (`"##A##B\n##C\n"`,
preamble `"##"`, terminal `"\n"`) the iterator re-parses the same buffer
forever, reads to EOF and stops having emitted nothing; the claim expects
the block `(0, 7)` (and then `(7, 11)`). -/
theorem multiline_embedded_marker_no_emit :
    (mlBlocks "q" g2 [35, 35] [10] ⟨false, 1024, some 1048576⟩ 0).1 = [] ∧
    (mlBlocks "q" g2 [35, 35] [10] ⟨false, 1024, some 1048576⟩ 0).2.2 = true := by
  decide

/-! ## C4 -/

/-- The positioning rule exactly as the claim states it: the tracker offset
when present, else 0 when the channel backfills, else the end of the
file. -/
def claimOpenPos (tracker : List (String × Nat)) (backfill : Bool) (fileSize : Nat)
    (path : String) : Nat :=
  match List.lookup path tracker with
  | some o => o
  | none => if backfill then 0 else fileSize

/-- C4 counterexample: when the consumer's in-memory `pending_tracker`
holds an offset for the path, `ChannelConsumer.__call__` passes it to
`ChannelSource.open` and it preempts the durable tracker: with a pending
offset 50 and a tracker offset 10 the file is positioned at 50, not at the
10 the claim prescribes. -/
theorem open_pending_overrides_tracker :
    consumeOpenPos [("p", 50)] [("p", 10)] true 100 "p" = 50 ∧
    claimOpenPos [("p", 10)] true 100 "p" = 10 ∧ (50 : Nat) ≠ 10 := by decide

/-- C4 amended: the file is positioned at the consumer's pending-tracker
offset for the path when one is recorded and nonzero; otherwise exactly as
the claim states (tracker offset, else 0 when backfilling, else end of
file). -/
theorem open_position_amended (pt tr : List (String × Nat)) (bf : Bool) (sz : Nat)
    (p : String) :
    consumeOpenPos pt tr bf sz p =
      match List.lookup p pt with
      | some o => if o ≠ 0 then o else claimOpenPos tr bf sz p
      | none => claimOpenPos tr bf sz p := by
  unfold consumeOpenPos openPos claimOpenPos optTruthy
  cases hpt : List.lookup p pt with
  | none => cases htr : List.lookup p tr <;> cases bf <;> simp [htr]
  | some o =>
    by_cases ho : o = 0 <;> cases htr : List.lookup p tr <;> cases bf <;>
      simp [htr, ho]

/-! ## C6 -/

/-- C6 counterexample: with `cap = 0` the guard `if self.cap and duration >
self.cap` treats the cap as absent, so `Throttle.__call__` returns the
uncapped 30 where the claimed formula `min(cap, ...)` yields 0. -/
theorem throttle_zero_cap_uncapped :
    (throttleCall ⟨30, 2, some 0, 0, none⟩ 100).1 = 30 ∧
    min 0 (30 + 30 * 2 * 0) = 0 ∧ (30 : Nat) ≠ 0 := by decide

/-- C6 amended: an invocation computes
`d = duration + duration * backoff * count`, capped to `min(cap, d)` only
when `cap` is a nonzero value (no cap applies when `cap` is `None` or 0),
sets `expires_at = now + d`, increments `count` and returns `d`. -/
theorem throttle_call_amended (t : Throttle) (now : Nat) :
    (throttleCall t now).1 =
      (match t.cap with
       | some c =>
         if c = 0 then t.duration + t.duration * t.backoff * t.count
         else min c (t.duration + t.duration * t.backoff * t.count)
       | none => t.duration + t.duration * t.backoff * t.count) ∧
    (throttleCall t now).2.expiresAt = some (now + (throttleCall t now).1) ∧
    (throttleCall t now).2.count = t.count + 1 := by
  obtain ⟨d, bk, c, cnt, e⟩ := t
  cases c with
  | none => exact ⟨rfl, rfl, rfl⟩
  | some c =>
    refine ⟨?_, rfl, rfl⟩
    by_cases hc : c = 0
    · simp [throttleCall, hc]
    · simp only [throttleCall, hc, ne_eq, not_false_iff, true_and, if_false]
      rw [Nat.min_def]
      split_ifs <;> omega

/-! ## C8 -/

/-- C8 concrete run: a MODIFY event for the cached-matching path `"f"`. -/
def evF : ChannelEvent := ⟨"f", 2⟩

/-- C8 concrete run: worker with `"f"` in the match cache, a fresh
throttle, and an empty queue. -/
def wst0 : WorkerSt := ⟨[("f", some 0)], ⟨30, 2, some 600, 0, none⟩, []⟩

/-- C8: a `FileNotFound` during consume is treated as a DELETE (path
dropped from the match cache) and the worker continues — refuted.
`on_modify_file` calls `self.on_delete_file()` without the event argument
(a `TypeError`) and in any case re-raises, so the exception reaches the
`except` of `ChannelWorker.step`: the throttle engages (count 1,
`expires_at` set) and the event is requeued, while the match cache still
contains the path. -/
theorem worker_enoent_throttles_not_delete :
    workerDispatch (fun _ => some 0) wst0 evF (.error (PyExc.ioError ENOENT)) 100 =
      { matchCache := [("f", some 0)],
        throttle := ⟨30, 2, some 600, 1, some 130⟩,
        queue := [evF] } := by decide

/-! ## C9 -/

/-- C9: when the throttle is active the worker sleeps for the remaining
time `expires_at - now` — refuted.  `ChannelWorker.run` computes
`max(0, time.time() - expires_at)` with the operands swapped, which is 0
whenever `expires_at` lies in the future (and the truthiness check
guarantees it does): with `expires_at = 130` and `now = 100` the throttle
is active, `130 - 100 = 30` is positive, yet the slept duration is 0. -/
theorem worker_throttle_sleep_is_zero :
    (throttleTruthy ⟨30, 2, some 600, 1, some 130⟩ 100).1 = true ∧
    workerRunSleep 130 100 = 0 ∧ (0 : Int) < (130 : Int) - (100 : Int) := by decide

/-! ## C7 -/

/-- C7 concrete run: non-strict channel with `strict_slack = 2`. -/
def cfgC7 : ConsCfg := ⟨false, 2, some 100, none, 0⟩

/-- C7 concrete run: a sink that acknowledges every call. -/
def orC7 : Oracles := ⟨fun _ => .ack, fun _ => true, fun o => ⟨[], false, o⟩⟩

/-- C7 concrete run: consumer holding a pending offset for path `"p1"`. -/
def stC7 : CState :=
  { consInit cfgC7 [] with pendingTracker := [("p1", 10)], pending := 1, slack := 0 }

/-- C7 concrete run: the synchronously acknowledged block, on path `"p2"`. -/
def blkC7 : Block := ⟨"p2", 0, 5, [1, 2, 3, 4, 5]⟩

/-- C7 counterexample: a synchronous acknowledgement clears the whole
in-memory pending tracker (`flushed` calls `pending_tracker.clear()`), so
the entry recorded for the unrelated path `"p1"` is gone, where the claim
says entries for every other path are left unchanged. -/
theorem ack_clears_other_paths_pending :
    List.lookup "p1"
        (OneOut.state (procOne cfgC7 orC7 blkC7 stC7 locals0)).pendingTracker = none ∧
    List.lookup "p1" stC7.pendingTracker = some 10 := by decide

/-- C7 amended: when the sink acknowledges a block synchronously the
consumer writes `tracker[block.path] = block.end`, records the
acknowledgement, folds the pending count into the consumer count, resets
the strict-slack counter, increments the local count, accumulates the
block's bytes — and clears the pending state for ALL paths, not only the
block's own path. -/
theorem ack_frame_amended (cfg : ConsCfg) (or : Oracles) (b : Block) (st : CState)
    (loc : StepLocals) (h : or.sinkCall st.sinkIdx = SinkRes.ack) :
    procOne cfg or b st loc = .cont
      { st with
          sinkIdx := st.sinkIdx + 1
          tracker := setk st.tracker b.path b.end_
          acked := (b.path, b.end_) :: st.acked
          count := st.count + st.pending
          pending := 0
          flushAt := none
          slack := cfg.resetSlack
          pendingTracker := []
          bytes := st.bytes + (b.end_ - b.begin) }
      { loc with count := loc.count + 1, pending := 0
                 bytes := loc.bytes + (b.end_ - b.begin) } := by
  simp only [procOne, h, flushedFn]

/-- C7 amended, instantiated at the concrete run. -/
theorem ack_frame_amended_witness :
    procOne cfgC7 orC7 blkC7 stC7 locals0 = .cont
      { stC7 with
          sinkIdx := stC7.sinkIdx + 1
          tracker := setk stC7.tracker blkC7.path blkC7.end_
          acked := (blkC7.path, blkC7.end_) :: stC7.acked
          count := stC7.count + stC7.pending
          pending := 0
          flushAt := none
          slack := cfgC7.resetSlack
          pendingTracker := []
          bytes := stC7.bytes + (blkC7.end_ - blkC7.begin) }
      { locals0 with count := locals0.count + 1, pending := 0
                     bytes := locals0.bytes + (blkC7.end_ - blkC7.begin) } :=
  ack_frame_amended cfgC7 orC7 blkC7 stC7 locals0 rfl

/-! ## C10 -/

/-- C10: when `source.forms(fo)` raises before any `(form, block)` pair has
been yielded in a `step` call, the exception propagates out of `step`
unconditionally — for every channel configuration, strict or not,
regardless of remaining slack (`if not block: raise`); the error-tolerance
path requires a previously seen block.  Confirmed. -/
theorem step_first_error_propagates (cfg : ConsCfg) (or : Oracles) (fuel off : Nat)
    (st : CState) (loc : StepLocals)
    (hitems : (or.streams off).items = []) (hraises : (or.streams off).raises = true) :
    stepLoop cfg or (fuel + 1) off st loc none = .raised st := by
  simp only [stepLoop, hitems, hraises, procItems, if_true]

/-- C10 concrete run: a generator that raises before yielding anything. -/
def orC10 : Oracles := ⟨fun _ => .ack, fun _ => true, fun _ => ⟨[], true, 0⟩⟩

/-- C10 concrete run: a non-strict channel with slack remaining. -/
def cfgC10 : ConsCfg := ⟨false, 1, some 100, none, 0⟩

/-- C10 instantiated at a non-strict channel with slack remaining. -/
theorem step_first_error_propagates_witness :
    stepLoop cfgC10 orC10 1 0 (consInit cfgC10 []) locals0 none =
      .raised (consInit cfgC10 []) :=
  step_first_error_propagates cfgC10 orC10 0 0 (consInit cfgC10 []) locals0 rfl rfl

/-! ## C1 -/

/-- The no-gap property: every offset the durable tracker holds was
acknowledged by the sink — directly or via a successful flush (`acked`) —
or was written by the error handler `ChannelConsumer.error` (`errWrites`;
the original claim allows only the former). -/
def TrackInv (st : CState) : Prop :=
  ∀ p v, List.lookup p st.tracker = some v →
    (p, v) ∈ st.acked ∨ (p, v) ∈ st.errWrites

/-- Lookup after a dictionary update. -/
theorem lookup_setk (m : List (String × Nat)) (k : String) (v : Nat) (p : String) :
    List.lookup p (setk m k v) = if p = k then some v else List.lookup p m := by
  by_cases h : p = k
  · simp [setk, List.lookup, h]
  · have hb : (p == k) = false := beq_eq_false_iff_ne.mpr h
    simp [setk, List.lookup, hb, h]

/-- An offset found after committing the pending entries comes from a
pending entry or was in the tracker before. -/
theorem lookup_commit (l : List (String × Nat)) :
    ∀ (m : List (String × Nat)) (p : String) (v : Nat),
      List.lookup p (commit m l) = some v →
        (p, v) ∈ l ∨ List.lookup p m = some v := by
  induction l with
  | nil => intro m p v h; exact Or.inr h
  | cons kv t ih =>
    intro m p v h
    have h' : List.lookup p (commit (setk m kv.1 kv.2) t) = some v := h
    rcases ih _ p v h' with hm | hl
    · exact Or.inl (List.mem_cons_of_mem _ hm)
    · rw [lookup_setk] at hl
      by_cases hpk : p = kv.1
      · rw [if_pos hpk] at hl
        have hv : v = kv.2 := by injection hl with h2; exact h2.symm
        subst hv
        subst hpk
        exact Or.inl (List.mem_cons_self kv t)
      · rw [if_neg hpk] at hl
        exact Or.inr hl

/-- `flushed` leaves the tracker, the acknowledgement record and the
error-write record untouched. -/
theorem trackInv_flushedFn (cfg : ConsCfg) (st : CState) (h : TrackInv st) :
    TrackInv (flushedFn cfg st) := h

/-- The state carried by a `flush` outcome either way. -/
def exceptState : Except CState CState → CState
  | .ok s => s
  | .error s => s

/-- `flush` preserves the no-gap property: a successful flush acknowledges
exactly the pending entries it commits, and a failed flush leaves the
tracker untouched. -/
theorem trackInv_flushFn (cfg : ConsCfg) (or : Oracles) (st : CState)
    (h : TrackInv st) : TrackInv (exceptState (flushFn cfg or st)) := by
  unfold flushFn
  by_cases h1 : st.pending ≠ 0
  · rw [if_pos h1]
    by_cases h2 : or.flushOk st.flushIdx
    · rw [if_neg (by simp [h2])]
      intro p v hv
      have hv' : List.lookup p (commit st.tracker st.pendingTracker) = some v := hv
      rcases lookup_commit _ _ _ _ hv' with hm | hl
      · exact Or.inl (List.mem_append_right _ hm)
      · rcases h p v hl with ha | he
        · exact Or.inl (List.mem_append_left _ ha)
        · exact Or.inr he
    · rw [if_pos (by simp [h2])]
      exact h
  · rw [if_neg h1]
    exact h

/-- One loop iteration preserves the no-gap property: a synchronous
acknowledgement is recorded in `acked` alongside its tracker write, a
pending block writes no tracker entry, and a batch flush goes through
`flush`. -/
theorem trackInv_procOne (cfg : ConsCfg) (or : Oracles) (b : Block) (st : CState)
    (loc : StepLocals) (h : TrackInv st) :
    TrackInv (OneOut.state (procOne cfg or b st loc)) := by
  unfold procOne
  cases hr : or.sinkCall st.sinkIdx with
  | exn => exact h
  | ack =>
    intro p v hv
    have hv' :
        List.lookup p (setk st.tracker b.path b.end_) = some v := hv
    rw [lookup_setk] at hv'
    by_cases hpb : p = b.path
    · rw [if_pos hpb] at hv'
      have hvv : v = b.end_ := by injection hv' with h2; exact h2.symm
      subst hvv; subst hpb
      exact Or.inl (List.mem_cons_self _ _)
    · rw [if_neg hpb] at hv'
      rcases h p v hv' with ha | he
      · exact Or.inl (List.mem_cons_of_mem _ ha)
      · exact Or.inr he
  | pend =>
    simp only
    split
    · have hfl := trackInv_flushFn cfg or
        { st with
            sinkIdx := st.sinkIdx + 1
            pendingTracker := setk st.pendingTracker b.path b.end_
            flushAt :=
              if ¬ optTruthy st.flushAt ∧ optTruthy cfg.flushFreq then
                some (cfg.now + cfg.flushFreq.getD 0)
              else st.flushAt
            pending := st.pending + 1 } h
      cases hf : flushFn cfg or
          { st with
              sinkIdx := st.sinkIdx + 1
              pendingTracker := setk st.pendingTracker b.path b.end_
              flushAt :=
                if ¬ optTruthy st.flushAt ∧ optTruthy cfg.flushFreq then
                  some (cfg.now + cfg.flushFreq.getD 0)
                else st.flushAt
              pending := st.pending + 1 } with
      | ok s => rw [hf] at hfl; simp only [hf]; exact hfl
      | error s => rw [hf] at hfl; simp only [hf]; exact hfl
    · exact h

/-- The item loop of one generator preserves the no-gap property. -/
theorem trackInv_procItems (cfg : ConsCfg) (or : Oracles) :
    ∀ (items : List (Nat × Block)) (st : CState) (loc : StepLocals)
      (lb : Option Block), TrackInv st →
        TrackInv (ForOut.state (procItems cfg or items st loc lb)) := by
  intro items
  induction items with
  | nil => intro st loc lb h; exact h
  | cons hd t ih =>
    intro st loc lb h
    obtain ⟨f, b⟩ := hd
    simp only [procItems]
    cases hp : procOne cfg or b st loc with
    | cont st' loc' =>
      have h' := trackInv_procOne cfg or b st loc h
      rw [hp] at h'
      exact ih st' loc' (some b) h'
    | raisedAt st' loc' =>
      have h' := trackInv_procOne cfg or b st loc h
      rw [hp] at h'
      exact h'

/-- The error handler writes exactly the errored block's end, and records
it in `errWrites`. -/
theorem trackInv_errorFn (cfg : ConsCfg) (st : CState) (b : Block) (st' : CState)
    (h : TrackInv st) (he : errorFn cfg st b = some st') : TrackInv st' := by
  unfold errorFn at he
  by_cases hs : cfg.strict = true ∧ st.slack ≤ 0
  · rw [if_pos hs] at he
    exact absurd he (by simp)
  · rw [if_neg hs] at he
    injection he with he'
    subst he'
    intro p v hv
    have hv' : List.lookup p (setk st.tracker b.path b.end_) = some v := hv
    rw [lookup_setk] at hv'
    by_cases hpb : p = b.path
    · rw [if_pos hpb] at hv'
      have hvv : v = b.end_ := by injection hv' with h2; exact h2.symm
      subst hvv; subst hpb
      exact Or.inr (List.mem_cons_self _ _)
    · rw [if_neg hpb] at hv'
      rcases h p v hv' with ha | he2
      · exact Or.inl ha
      · exact Or.inr (List.mem_cons_of_mem _ he2)

/-- C1 concrete run: non-strict channel with no slack. -/
def cfgC1 : ConsCfg := ⟨false, 0, some 100, none, 0⟩

/-- C1 concrete run: the block the sink errors on. -/
def blkC1 : Block := ⟨"p", 0, 3, [7, 8, 10]⟩

/-- C1 concrete run: the sink raises on every call; the generator at
offset 0 yields exactly `blkC1`. -/
def orC1 : Oracles :=
  ⟨fun _ => .exn, fun _ => true,
   fun o => if o = 0 then ⟨[(0, blkC1)], false, 3⟩ else ⟨[], false, o⟩⟩

/-- C1 counterexample: a sink exception on the very first block is handled
by `ChannelConsumer.error` (non-strict channel), which advances the tracker
for `"p"` to the errored block's end 3 although the sink acknowledged
nothing at all — the acknowledgement record of the run is empty. -/
theorem step_error_advances_unacked :
    List.lookup "p"
        (StepOut.state
          (stepLoop cfgC1 orC1 3 0 (consInit cfgC1 []) locals0 none)).tracker =
      some 3 ∧
    (StepOut.state
        (stepLoop cfgC1 orC1 3 0 (consInit cfgC1 []) locals0 none)).acked = [] := by
  decide

/-- C1 amended: at every point during a `step` run (any fuel, any oracle
behaviour, any configuration), every offset the tracker holds for a path
was acknowledged by the sink — directly or via a successful flush — or was
written by the error handler, which advances the tracker to an errored
block's end; outside `ChannelConsumer.error` the no-gap property of the
claim holds. -/
theorem step_no_gap_outside_error (cfg : ConsCfg) (or : Oracles) :
    ∀ (fuel off : Nat) (st : CState) (loc : StepLocals) (lb : Option Block),
      TrackInv st → TrackInv (StepOut.state (stepLoop cfg or fuel off st loc lb)) := by
  intro fuel
  induction fuel with
  | zero => intro off st loc lb h; exact h
  | succ n ih =>
    intro off st loc lb h
    simp only [stepLoop]
    cases hp : procItems cfg or (or.streams off).items st loc lb with
    | raisedAt st' loc' b =>
      have h' := trackInv_procItems cfg or (or.streams off).items st loc lb h
      rw [hp] at h'
      dsimp only
      cases he : errorFn cfg st' b with
      | none => exact h'
      | some st'' => exact ih _ st'' _ _ (trackInv_errorFn cfg st' b st'' h' he)
    | done st' loc' lb' =>
      have h' := trackInv_procItems cfg or (or.streams off).items st loc lb h
      rw [hp] at h'
      dsimp only
      by_cases hr : (or.streams off).raises
      · rw [if_pos hr]
        cases lb' with
        | none => exact h'
        | some b =>
          dsimp only
          cases he : errorFn cfg st' b with
          | none => exact h'
          | some st'' => exact ih _ st'' _ _ (trackInv_errorFn cfg st' b st'' h' he)
      · rw [if_neg hr]
        exact h'

/-- C1 amended, instantiated at the concrete run (the tracker entry written
for `"p"` is the error handler's). -/
theorem step_no_gap_outside_error_witness :
    TrackInv (StepOut.state (stepLoop cfgC1 orC1 3 0 (consInit cfgC1 []) locals0 none)) :=
  step_no_gap_outside_error cfgC1 orC1 3 0 (consInit cfgC1 []) locals0 none
    (fun _ _ hv => nomatch hv)

/-! ## C5 -/

/-- C5 concrete run: line iterator with `read_size = 4`,
`max_buffer_size = 4`. -/
def icfgC5 : ItCfg := ⟨false, 4, some 4⟩

/-- C5 concrete run: non-strict backfilling channel. -/
def cfgC5 : ConsCfg := ⟨false, 0, some 100, none, 0⟩

/-- C5 concrete run: an always-acknowledging sink over the line-mode
generator for `g1`. -/
def orC5 : Oracles := ⟨fun _ => .ack, fun _ => true, lineStreams "p" g1 [10] icfgC5⟩

/-- C5: consuming the same unchanged file twice yields zero forms on the
second call — refuted.  Over `g1` the first record overflows the buffer and
is discarded without advancing `pos`, so the two blocks the first consume
delivers carry the bogus offsets `(1,4)` and `(4,7)` and the tracker ends
at 7 instead of the true end of file 15; the second consume reopens at
offset 7 and delivers three further forms. -/
theorem reconsume_yields_forms_after_discard :
    ((consumeCall cfgC5 orC5 4 true g1.length "p" (consInit cfgC5 [])).bind fun r1 =>
      (consumeCall cfgC5 orC5 4 true g1.length "p" (consInit cfgC5 r1.2.tracker)).map
        fun r2 => (r1.1.1, r2.1.1)) = some (2, 3) := by decide

end Slurp
